import Mathlib

/-!
# Verification of the rltk blocking engine core

Shallow embedding of `src/rltk/record.py` and
`src/rltk/blocking/hash_block_generator.py`, together with proofs about the
blocking pass, block merging, record identity, id validation and the
cached-property machinery.

Python values that can flow through the key-extraction functions and record
attributes are modelled by the inductive `PyVal`; Python exceptions by
`RLTKError`; Python instance `__dict__`s by insertion-ordered association
lists.  The `Block` and `BlockBlackList` classes are not part of the sources
(only their users are), so they are modelled from the spec where indicated.
-/

set_option autoImplicit false

namespace RLTK

/-- A dynamically typed Python value, restricted to the shapes that occur in
the embedded code paths: strings, integers, booleans and `None`. -/
inductive PyVal where
  | str (s : String)
  | int (n : Int)
  | boolV (b : Bool)
  | noneV
deriving DecidableEq, Repr

/-- The Python exceptions raised by the embedded code:
`TypeError`, `ValueError` and `KeyError`, each with its message. -/
inductive RLTKError where
  | typeError (msg : String)
  | valueError (msg : String)
  | keyError (msg : String)
deriving DecidableEq, Repr

/-- `true` exactly on the `typeError` branch of an `Except` result. -/
def isTypeError {α : Type} : Except RLTKError α → Bool
  | Except.error (RLTKError.typeError _) => true
  | _ => false

/-- Modelled from the spec: the `Block` class is not under `src/`.  The spec
describes it as a mapping from blocking-key to the set of
(dataset-id, record-id) pairs sharing that key, with no duplicate membership,
consumable as a flat sequence of (key, dataset-id, record-id) triples.  We
model the membership as a duplicate-free insertion-ordered list of triples;
iteration over a `Block` yields `entries` in order. -/
structure Block where
  entries : List (String × String × String)
deriving DecidableEq, Repr

/-- Modelled from the spec: `add(key, dataset_id, record_id)` inserts the pair
under `key` and is idempotent for an identical triple (no duplicates). -/
def Block.add (b : Block) (key ds rid : String) : Block :=
  if (key, ds, rid) ∈ b.entries then b else ⟨b.entries ++ [(key, ds, rid)]⟩

/-- First value stored under key `k` in an insertion-ordered association
list (Python `dict` lookup; keys are unique in an actual `dict`). -/
def countLookup : List (PyVal × Nat) → PyVal → Option Nat
  | [], _ => Option.none
  | p :: ps, v => if p.1 = v then some p.2 else countLookup ps v

/-- Bump the count stored under `v` (insert `1` when absent). -/
def countBump : List (PyVal × Nat) → PyVal → List (PyVal × Nat)
  | [], v => [(v, 1)]
  | p :: ps, v => if p.1 = v then (p.1, p.2 + 1) :: ps else p :: countBump ps v

/-- Modelled from the spec: the `BlockBlackList` class is not under `src/`.
It tracks, per blocking-key value, how many block associations have been
recorded, against a maximum-occurrences threshold.  The spec leaves open
whether distinct blocks or total additions are counted; the spec's own
example (a key excluded after its 6th association within one pass over a
single output block) forces the total-additions reading, which we adopt. -/
structure BlockBlackList where
  counts : List (PyVal × Nat)
  maxSize : Nat
deriving DecidableEq, Repr

/-- Occurrences recorded so far for `v`. -/
def BlockBlackList.count (bl : BlockBlackList) (v : PyVal) : Nat :=
  (countLookup bl.counts v).getD 0

/-- Modelled from the spec: `has(key)` is true once the key's recorded
associations exceed the threshold. -/
def BlockBlackList.has (bl : BlockBlackList) (v : PyVal) : Bool :=
  bl.maxSize < bl.count v

/-- Modelled from the spec: `add(key, block)` records one more association of
`key` (the block argument is bookkeeping only and does not affect `has`). -/
def BlockBlackList.add (bl : BlockBlackList) (v : PyVal) (_b : Block) : BlockBlackList :=
  ⟨countBump bl.counts v, bl.maxSize⟩

/-- A record as seen by the blocking pass: a validated string id plus the
attribute content that key-extraction functions may read. -/
structure Rec where
  id : String
  attrs : List (String × PyVal)
deriving DecidableEq, Repr

/-- A dataset: a stable dataset id and a finite sequence of records
(iteration order is the list order). -/
structure Dataset where
  id : String
  records : List Rec
deriving DecidableEq, Repr

/-- The Python guard `block_black_list and block_black_list.has(value)`:
`None` is falsy, an object is truthy. -/
def blHas (bl : Option BlockBlackList) (v : PyVal) : Bool :=
  match bl with
  | some l => l.has v
  | Option.none => false

/-- Shallow embedding of the record loop of `HashBlockGenerator.block`
(src/rltk/blocking/hash_block_generator.py, lines 20-30).  The
`_block_args_check` preamble (not under `src/`) validates the
function/property configuration and defaults the output block; we take the
already-selected key extractor `f` (covering both `function_(r)` and
`getattr(r, property_)`) and the starting block directly.  The loop: extract
the value, skip the record if the black-list excludes it, raise `ValueError`
if the value is not a string, otherwise add to the block and inform the
black-list. -/
def hashBlockLoop (dsId : String) (f : Rec → PyVal) :
    List Rec → Block → Option BlockBlackList →
    Except RLTKError (Block × Option BlockBlackList)
  | [], b, bl => Except.ok (b, bl)
  | r :: rs, b, bl =>
    let value := f r
    if blHas bl value then
      hashBlockLoop dsId f rs b bl
    else
      match value with
      | PyVal.str s =>
        let b' := b.add s dsId r.id
        let bl' := match bl with
          | some l => some (l.add value b')
          | Option.none => Option.none
        hashBlockLoop dsId f rs b' bl'
      | _ => Except.error
          (RLTKError.valueError "Return of the function or property should be a string")

/-- `HashBlockGenerator.block` with the default (fresh, empty) output block,
returning the populated block together with the final black-list state. -/
def hashBlock (ds : Dataset) (f : Rec → PyVal) (bl : Option BlockBlackList) :
    Except RLTKError (Block × Option BlockBlackList) :=
  hashBlockLoop ds.id f ds.records ⟨[]⟩ bl

/-- One `output_block.add(block_id, ds_id, record_id)` step of `generate`. -/
def addTriple (b : Block) (t : String × String × String) : Block :=
  b.add t.1 t.2.1 t.2.2

/-- Shallow embedding of `HashBlockGenerator.generate`
(src/rltk/blocking/hash_block_generator.py, lines 32-38) with the default
fresh output block: every triple of `block1`, then every triple of `block2`,
is added to the output. -/
def generate (b1 b2 : Block) : Block :=
  b2.entries.foldl addTriple (b1.entries.foldl addTriple ⟨[]⟩)

/-! ## record.py -/

/-- A Python instance `__dict__`: an insertion-ordered association list from
attribute name to value (keys unique in an actual `dict`). -/
structure Obj where
  dict : List (String × PyVal)
deriving DecidableEq, Repr

/-- `dict` lookup on an instance `__dict__` (first entry wins). -/
def dictGet : List (String × PyVal) → String → Option PyVal
  | [], _ => Option.none
  | p :: ps, k => if p.1 = k then some p.2 else dictGet ps k

/-- `name in obj.__dict__` / `obj.__dict__.get(name)`. -/
def Obj.lookup (o : Obj) (k : String) : Option PyVal :=
  dictGet o.dict k

/-- `del obj.__dict__[k]` on a unique-key dict: drop the entry for `k`. -/
def Obj.removeKey (o : Obj) (k : String) : Obj :=
  ⟨o.dict.filter (fun p => p.1 ≠ k)⟩

/-- A `cached_property` class member: the decorated function together with
its `__name__`, under which the computed value is cached in the instance
`__dict__` (src/rltk/record.py, class `cached_property`). -/
structure CachedProp where
  name : String
  func : Obj → PyVal

/-- Shallow embedding of `cached_property.__get__` on an instance
(src/rltk/record.py, lines 46-62; the `obj is None` class-access branch,
which returns the descriptor itself, is outside the instance-access paths
modelled here).  If the name is not in the instance dict, compute
`self.func(obj)` and store it; then return `obj.__dict__.get(name)`.
The third component records whether `self.func` was invoked. -/
def cachedGet (p : CachedProp) (obj : Obj) : PyVal × Obj × Bool :=
  match obj.lookup p.name with
  | some v => (v, obj, false)
  | Option.none =>
    let obj' : Obj := ⟨obj.dict ++ [(p.name, p.func obj)]⟩
    ((obj'.lookup p.name).getD PyVal.noneV, obj', true)

/-- A record instance for the identity claim: its concrete class, written as
the chain of class ids from the root of its (single-inheritance) hierarchy,
and the value its `id` property returns.  A class `c` is the same as or an
ancestor of a class `d` exactly when `c`'s chain is a prefix of `d`'s. -/
structure PyRecord where
  cls : List Nat
  id : PyVal
deriving DecidableEq, Repr

/-- Python `isinstance(obj, c)`: `obj`'s class is `c` or a descendant. -/
def pyIsinstance (obj : PyRecord) (c : List Nat) : Bool :=
  c.isPrefixOf obj.cls

/-- Shallow embedding of `Record.__eq__` (src/rltk/record.py, lines 27-36):
`isinstance(other, self.__class__)` and then `self.id == other.id`.  Since
`__eq__` always resolves to this one method and returns a `bool`, the Python
`==` between two records evaluates to exactly this. -/
def recordEq (self other : PyRecord) : Bool :=
  if ¬ pyIsinstance other self.cls then false
  else self.id == other.id

/-- Shallow embedding of Python `re.match` with the compiled pattern
`re_record_id = re.compile(r'^[^*]{1,255}$')` (src/rltk/record.py, line 4):
the match succeeds iff for some `k` with `1 ≤ k ≤ 255` the first `k`
characters exist, none of them is `*`, and the `$` anchor matches right
after them — in Python, `$` matches at the end of the string or just before
a newline that is the string's last character. -/
def re_record_id_match (s : String) : Bool :=
  let cs := s.data
  (List.range' 1 255).any (fun k =>
    decide (k ≤ cs.length) &&
    (cs.take k).all (fun ch => ch != '*') &&
    (decide (k = cs.length) ||
      (decide (k + 1 = cs.length) && (cs.getLast? == some '\n'))))

/-- A record class as the embedded code sees it: its `__name__`, the
`cached_property` members of its own `__dict__` in definition order, the
plain (non-cached) `id` property used when no cached property is named
`"id"`, and the `remove_raw_object` flag. -/
structure RecClass where
  className : String
  cachedProps : List CachedProp
  plainId : Obj → PyVal
  removeRaw : Bool

/-- First `cached_property` named `"id"` in the class dict, if any. -/
def findIdProp : List CachedProp → Option CachedProp
  | [] => Option.none
  | p :: ps => if p.name = "id" then some p else findIdProp ps

/-- `obj.id`: attribute lookup for `id`.  A `cached_property` is a data
descriptor, so a cached `id` goes through `cachedGet` (possibly mutating the
instance); otherwise the plain property function is called. -/
def RecClass.getId (c : RecClass) (o : Obj) : PyVal × Obj :=
  match findIdProp c.cachedProps with
  | some p => ((cachedGet p o).1, (cachedGet p o).2.1)
  | Option.none => (c.plainId o, o)

/-- Shallow embedding of `validate_record` (src/rltk/record.py, lines 96-109):
`TypeError` when `obj.id` is not a string, `ValueError` when the id does not
match `re_record_id`, otherwise return normally (with the instance as
possibly mutated by reading a cached `id`). -/
def validate_record (c : RecClass) (o : Obj) : Except RLTKError Obj :=
  match c.getId o with
  | (PyVal.str s, o') =>
    if re_record_id_match s then Except.ok o'
    else Except.error (RLTKError.valueError "Id is not valid")
  | (_, _) =>
    Except.error (RLTKError.typeError
      ("Id in " ++ c.className ++ " should be an utf-8 encoded string."))

/-- The forcing loop of `generate_record_property_cache`: `getattr(obj, n)`
for every `cached_property` member `n` of the class dict, in order. -/
def forceProps (c : RecClass) (o : Obj) : Obj :=
  c.cachedProps.foldl (fun acc p => (cachedGet p acc).2.1) o

/-- Shallow embedding of `generate_record_property_cache`
(src/rltk/record.py, lines 79-93): force every `cached_property`, then
`validate_record(obj)`, then `del obj.__dict__['raw_object']` when the class
declares `remove_raw_object` (a `del` of a missing key is a `KeyError`). -/
def generate_record_property_cache (c : RecClass) (o : Obj) :
    Except RLTKError Obj :=
  match validate_record c (forceProps c o) with
  | Except.error e => Except.error e
  | Except.ok o2 =>
    if c.removeRaw then
      match o2.lookup "raw_object" with
      | some _ => Except.ok (o2.removeKey "raw_object")
      | Option.none => Except.error (RLTKError.keyError "raw_object")
    else Except.ok o2

/-! ## Helper lemmas -/

theorem Block.mem_add {b : Block} {k d r : String} {t : String × String × String} :
    t ∈ (b.add k d r).entries ↔ t ∈ b.entries ∨ t = (k, d, r) := by
  unfold Block.add
  split
  next h =>
    constructor
    · exact Or.inl
    · rintro (ht | rfl)
      · exact ht
      · exact h
  next h => simp [List.mem_append]

theorem mem_foldl_addTriple (l : List (String × String × String)) :
    ∀ (b : Block) (t : String × String × String),
      t ∈ (l.foldl addTriple b).entries ↔ t ∈ b.entries ∨ t ∈ l := by
  induction l with
  | nil => intro b t; simp
  | cons u l ih =>
    intro b t
    rw [List.foldl_cons, ih]
    simp only [addTriple, Block.mem_add, List.mem_cons, Prod.mk.eta]
    tauto

theorem hashBlockLoop_skip (dsId : String) (f : Rec → PyVal) (r : Rec)
    (rs : List Rec) (b : Block) (bl : Option BlockBlackList)
    (h : blHas bl (f r) = true) :
    hashBlockLoop dsId f (r :: rs) b bl = hashBlockLoop dsId f rs b bl := by
  rw [hashBlockLoop]
  simp [h]

theorem hashBlockLoop_add_step (dsId : String) (f : Rec → PyVal) (r : Rec)
    (rs : List Rec) (b : Block) (bl : BlockBlackList) (s : String)
    (hnb : bl.has (f r) = false) (hs : f r = PyVal.str s) :
    hashBlockLoop dsId f (r :: rs) b (some bl) =
      hashBlockLoop dsId f rs (b.add s dsId r.id)
        (some (bl.add (PyVal.str s) (b.add s dsId r.id))) := by
  rw [hashBlockLoop]
  have hb : blHas (some bl) (f r) = false := hnb
  have hb2 : blHas (some bl) (PyVal.str s) = false := by rw [← hs]; exact hb
  simp only [hb, hb2, Bool.false_eq_true, if_false, hs]

theorem hashBlockLoop_error_step (dsId : String) (f : Rec → PyVal) (r : Rec)
    (rs : List Rec) (b : Block) (bl : Option BlockBlackList)
    (hnb : blHas bl (f r) = false) (hns : ∀ s, f r ≠ PyVal.str s) :
    hashBlockLoop dsId f (r :: rs) b bl =
      Except.error
        (RLTKError.valueError "Return of the function or property should be a string") := by
  rw [hashBlockLoop]
  rcases hv : f r with s | n | x | _
  · exact absurd hv (hns s)
  all_goals (rw [hv] at hnb; simp only [hnb, Bool.false_eq_true, if_false])

theorem hashBlockLoop_mono (dsId : String) (f : Rec → PyVal) :
    ∀ (rs : List Rec) (b : Block) (bl : Option BlockBlackList) (b' : Block)
      (bl' : Option BlockBlackList),
      hashBlockLoop dsId f rs b bl = Except.ok (b', bl') →
      ∀ t ∈ b.entries, t ∈ b'.entries := by
  intro rs
  induction rs with
  | nil =>
    intro b bl b' bl' h t ht
    rw [hashBlockLoop] at h
    simp only [Except.ok.injEq, Prod.mk.injEq] at h
    obtain ⟨rfl, rfl⟩ := h
    exact ht
  | cons r rs ih =>
    intro b bl b' bl' h t ht
    rw [hashBlockLoop] at h
    split at h
    · exact ih b bl b' bl' h t ht
    · split at h
      next s heq =>
        exact ih _ _ b' bl' h t (Block.mem_add.mpr (Or.inl ht))
      next heq =>
        cases h

theorem dictGet_append_left {d l : List (String × PyVal)} {k : String}
    {v : PyVal} (h : dictGet d k = some v) : dictGet (d ++ l) k = some v := by
  induction d with
  | nil => cases h
  | cons p ps ih =>
    rw [dictGet] at h
    rw [List.cons_append, dictGet]
    split at h
    next hp => rw [if_pos hp]; exact h
    next hp => rw [if_neg hp]; exact ih h

theorem dictGet_append_self {d : List (String × PyVal)} {k : String}
    {x : PyVal} (h : dictGet d k = Option.none) :
    dictGet (d ++ [(k, x)]) k = some x := by
  induction d with
  | nil => simp [dictGet]
  | cons p ps ih =>
    rw [dictGet] at h
    rw [List.cons_append, dictGet]
    split at h
    next hp => cases h
    next hp => rw [if_neg hp]; exact ih h

theorem dictGet_filter_ne {d : List (String × PyVal)} {k k' : String}
    {v : PyVal} (hne : k' ≠ k) (h : dictGet d k' = some v) :
    dictGet (d.filter (fun p => p.1 ≠ k)) k' = some v := by
  induction d with
  | nil => cases h
  | cons p ps ih =>
    rw [dictGet] at h
    rw [List.filter_cons]
    split at h
    next hp =>
      have hk : (decide (p.1 ≠ k)) = true := by
        simp [hp, hne]
      rw [hk]
      simp only [if_true]
      rw [dictGet, if_pos hp]
      exact h
    next hp =>
      split
      · rw [dictGet, if_neg hp]; exact ih h
      · exact ih h

theorem dictGet_filter_self (d : List (String × PyVal)) (k : String) :
    dictGet (d.filter (fun p => p.1 ≠ k)) k = Option.none := by
  induction d with
  | nil => rfl
  | cons p ps ih =>
    rw [List.filter_cons]
    split
    next hp =>
      have : p.1 ≠ k := of_decide_eq_true hp
      rw [dictGet, if_neg this]
      exact ih
    next hp => exact ih

theorem cachedGet_dict (p : CachedProp) (o : Obj) :
    ∃ l, ((cachedGet p o).2.1).dict = o.dict ++ l := by
  unfold cachedGet
  cases h : o.lookup p.name with
  | some v => exact ⟨[], by simp⟩
  | none => exact ⟨[(p.name, p.func o)], rfl⟩

theorem cachedGet_preserves (p : CachedProp) (o : Obj) (k : String) (v : PyVal)
    (h : o.lookup k = some v) : ((cachedGet p o).2.1).lookup k = some v := by
  obtain ⟨l, hl⟩ := cachedGet_dict p o
  rw [Obj.lookup, hl]
  exact dictGet_append_left h

theorem cachedGet_stores (p : CachedProp) (o : Obj) :
    ∃ v, ((cachedGet p o).2.1).lookup p.name = some v := by
  unfold cachedGet
  cases h : o.lookup p.name with
  | some v => exact ⟨v, h⟩
  | none => exact ⟨p.func o, dictGet_append_self h⟩

theorem cachedGet_cached (p : CachedProp) (o : Obj) (v : PyVal)
    (h : o.lookup p.name = some v) : cachedGet p o = (v, o, false) := by
  unfold cachedGet
  rw [h]

theorem foldProps_preserves (ps : List CachedProp) :
    ∀ (o : Obj) (k : String) (v : PyVal), o.lookup k = some v →
      (ps.foldl (fun acc p => (cachedGet p acc).2.1) o).lookup k = some v := by
  induction ps with
  | nil => intro o k v h; exact h
  | cons q ps ih =>
    intro o k v h
    rw [List.foldl_cons]
    exact ih _ k v (cachedGet_preserves q o k v h)

theorem foldProps_stores (ps : List CachedProp) :
    ∀ (o : Obj) (p : CachedProp), p ∈ ps →
      ∃ v, (ps.foldl (fun acc p => (cachedGet p acc).2.1) o).lookup p.name = some v := by
  induction ps with
  | nil => intro o p hp; cases hp
  | cons q ps ih =>
    intro o p hp
    rw [List.foldl_cons]
    rcases List.mem_cons.mp hp with rfl | hp'
    · obtain ⟨v, hv⟩ := cachedGet_stores p o
      exact ⟨v, foldProps_preserves ps _ _ _ hv⟩
    · exact ih _ p hp'

theorem getId_preserves (c : RecClass) (o : Obj) (k : String) (v : PyVal)
    (h : o.lookup k = some v) : ((c.getId o).2).lookup k = some v := by
  unfold RecClass.getId
  cases findIdProp c.cachedProps with
  | some p => exact cachedGet_preserves p o k v h
  | none => exact h

theorem validate_ok_preserves (c : RecClass) (o o2 : Obj)
    (h : validate_record c o = Except.ok o2) :
    ∀ (k : String) (v : PyVal), o.lookup k = some v → o2.lookup k = some v := by
  intro k v hkv
  have hpres := getId_preserves c o k v hkv
  unfold validate_record at h
  rcases hg : c.getId o with ⟨idv, o'⟩
  rw [hg] at h hpres
  rcases idv with s | n | x | _
  · rw [show (match (PyVal.str s, o') with
      | (PyVal.str s, o') =>
        if re_record_id_match s then Except.ok o'
        else Except.error (RLTKError.valueError "Id is not valid")
      | (_, _) => Except.error (RLTKError.typeError
          ("Id in " ++ c.className ++ " should be an utf-8 encoded string."))) =
      if re_record_id_match s then Except.ok o'
      else Except.error (RLTKError.valueError "Id is not valid") from rfl] at h
    split at h
    · cases h; exact hpres
    · cases h
  all_goals cases h

/-- The string a key extraction yields, under the assumption that it yields
a string (proof scaffolding for the no-black-list run). -/
def keyOf (f : Rec → PyVal) (r : Rec) : String :=
  match f r with
  | PyVal.str s => s
  | _ => ""

theorem hashBlockLoop_none_run (dsId : String) (f : Rec → PyVal) :
    ∀ (rs : List Rec) (b : Block),
      (∀ r ∈ rs, ∃ s, f r = PyVal.str s) →
      (∀ r ∈ rs, ∀ t ∈ b.entries, t.2.2 ≠ r.id) →
      (rs.map Rec.id).Nodup →
      hashBlockLoop dsId f rs b Option.none =
        Except.ok
          (⟨b.entries ++ rs.map (fun r => (keyOf f r, dsId, r.id))⟩, Option.none) := by
  intro rs
  induction rs with
  | nil => intro b _ _ _; simp [hashBlockLoop]
  | cons r rs ih =>
    intro b hstr hfresh hnodup
    obtain ⟨s, hs⟩ := hstr r (List.mem_cons_self r rs)
    have hkey : keyOf f r = s := by rw [keyOf, hs]
    have hmem : (s, dsId, r.id) ∉ b.entries := fun hc =>
      hfresh r (List.mem_cons_self r rs) _ hc rfl
    rw [hashBlockLoop]
    have hbl : blHas Option.none (f r) = false := rfl
    have hbl2 : blHas Option.none (PyVal.str s) = false := rfl
    simp only [hbl, hbl2, Bool.false_eq_true, if_false, hs]
    have hadd : Block.add b s dsId r.id = ⟨b.entries ++ [(s, dsId, r.id)]⟩ := by
      rw [Block.add, if_neg hmem]
    rw [hadd]
    have hid : r.id ∉ rs.map Rec.id := (List.nodup_cons.mp hnodup).1
    rw [ih ⟨b.entries ++ [(s, dsId, r.id)]⟩
      (fun r' hr' => hstr r' (List.mem_cons_of_mem r hr'))
      (by
        intro r' hr' t ht
        rcases List.mem_append.mp ht with hto | htn
        · exact hfresh r' (List.mem_cons_of_mem r hr') t hto
        · rcases List.mem_singleton.mp htn with rfl
          intro hcontra
          have h2 : r.id = r'.id := hcontra
          exact hid (h2 ▸ List.mem_map_of_mem Rec.id hr'))
      (List.nodup_cons.mp hnodup).2]
    rw [List.map_cons, List.append_assoc, List.singleton_append, hkey]

/-! ## Claim theorems -/

/-- C1: for every dataset and every key extraction that returns a string on
every record, `block` with no black-list succeeds and every record of the
dataset appears in exactly one key-group of the resulting block — under the
key the extraction yields for it, recorded as the
(dataset id, record id) pair. -/
theorem hashBlock_partitions (ds : Dataset) (f : Rec → PyVal)
    (hstr : ∀ r ∈ ds.records, ∃ s, f r = PyVal.str s)
    (hnodup : (ds.records.map Rec.id).Nodup) :
    ∃ b : Block, hashBlock ds f Option.none = Except.ok (b, Option.none) ∧
      ∀ r ∈ ds.records, ∀ k : String,
        ((k, ds.id, r.id) ∈ b.entries ↔ f r = PyVal.str k) := by
  refine ⟨⟨ds.records.map (fun r => (keyOf f r, ds.id, r.id))⟩, ?_, ?_⟩
  · rw [hashBlock, hashBlockLoop_none_run ds.id f ds.records ⟨[]⟩ hstr
      (by intro r hr t ht; cases ht) hnodup]
    rw [List.nil_append]
  · intro r hr k
    constructor
    · intro hmem
      obtain ⟨r', hr', heq⟩ := List.mem_map.mp hmem
      have hk : keyOf f r' = k := congrArg Prod.fst heq
      have hid : r'.id = r.id := congrArg (fun t => t.2.2) heq
      have hrr : r' = r := List.inj_on_of_nodup_map hnodup hr' hr hid
      subst hrr
      obtain ⟨s, hs⟩ := hstr r' hr'
      have hks : keyOf f r' = s := by rw [keyOf, hs]
      rw [hs, ← hk, hks]
    · intro hf
      refine List.mem_map.mpr ⟨r, hr, ?_⟩
      have hkk : keyOf f r = k := by rw [keyOf, hf]
      rw [hkk]

/-- Witness for C1 at a concrete two-record dataset with a constant key. -/
theorem hashBlock_partitions_witness :
    ∃ b : Block,
      hashBlock ⟨"A", [⟨"a1", []⟩, ⟨"a2", []⟩]⟩ (fun _ => PyVal.str "john")
          Option.none = Except.ok (b, Option.none) ∧
      ∀ r ∈ [(⟨"a1", []⟩ : Rec), ⟨"a2", []⟩], ∀ k : String,
        ((k, "A", r.id) ∈ b.entries ↔ PyVal.str "john" = PyVal.str k) :=
  hashBlock_partitions ⟨"A", [⟨"a1", []⟩, ⟨"a2", []⟩]⟩ (fun _ => PyVal.str "john")
    (fun _ _ => ⟨"john", rfl⟩) (by decide)

/-- C2: `generate(block1, block2)` (with the default fresh output block)
contains a (key, dataset-id, record-id) triple iff the triple is in `block1`
or in `block2` — the key-wise union of the two memberships. -/
theorem generate_union (b1 b2 : Block) (t : String × String × String) :
    t ∈ (generate b1 b2).entries ↔ t ∈ b1.entries ∨ t ∈ b2.entries := by
  rw [generate, mem_foldl_addTriple, mem_foldl_addTriple]
  simp [List.not_mem_nil]

/-- C3: during a blocking pass with a black-list: a record whose key the
black-list currently excludes is skipped entirely (no output entry, no state
change at this record); a record whose key is not excluded is added to the
block and the black-list is then informed of the key/block association; and
entries already in the block are never removed by the rest of the pass. -/
theorem hashBlock_blacklist_pass :
    (∀ (dsId : String) (f : Rec → PyVal) (r : Rec) (rs : List Rec) (b : Block)
        (bl : BlockBlackList), bl.has (f r) = true →
        hashBlockLoop dsId f (r :: rs) b (some bl) =
          hashBlockLoop dsId f rs b (some bl))
    ∧ (∀ (dsId : String) (f : Rec → PyVal) (r : Rec) (rs : List Rec) (b : Block)
        (bl : BlockBlackList) (s : String), bl.has (f r) = false →
        f r = PyVal.str s →
        hashBlockLoop dsId f (r :: rs) b (some bl) =
          hashBlockLoop dsId f rs (b.add s dsId r.id)
            (some (bl.add (PyVal.str s) (b.add s dsId r.id))))
    ∧ (∀ (dsId : String) (f : Rec → PyVal) (rs : List Rec) (b : Block)
        (bl : Option BlockBlackList) (b' : Block) (bl' : Option BlockBlackList),
        hashBlockLoop dsId f rs b bl = Except.ok (b', bl') →
        ∀ t ∈ b.entries, t ∈ b'.entries) :=
  ⟨fun dsId f r rs b bl h => hashBlockLoop_skip dsId f r rs b (some bl) h,
   fun dsId f r rs b bl s h1 h2 => hashBlockLoop_add_step dsId f r rs b bl s h1 h2,
   fun dsId f rs b bl b' bl' h => hashBlockLoop_mono dsId f rs b bl b' bl' h⟩

/-- Witness for C3: a concrete excluded key is skipped; a concrete fresh key
is added and recorded; a finished pass kept a pre-existing entry. -/
theorem hashBlock_blacklist_pass_witness :
    (hashBlockLoop "d" (fun _ => PyVal.str "k") [⟨"r1", []⟩] ⟨[]⟩
        (some ⟨[(PyVal.str "k", 5)], 2⟩)
      = hashBlockLoop "d" (fun _ => PyVal.str "k") [] ⟨[]⟩
        (some ⟨[(PyVal.str "k", 5)], 2⟩))
    ∧ (hashBlockLoop "d" (fun _ => PyVal.str "k") [⟨"r1", []⟩] ⟨[]⟩
        (some ⟨[], 2⟩)
      = hashBlockLoop "d" (fun _ => PyVal.str "k") []
          (Block.add ⟨[]⟩ "k" "d" "r1")
          (some (BlockBlackList.add ⟨[], 2⟩ (PyVal.str "k")
            (Block.add ⟨[]⟩ "k" "d" "r1"))))
    ∧ (("k", "d", "r1") ∈ (Block.mk [("k", "d", "r1")]).entries) :=
  ⟨hashBlock_blacklist_pass.1 "d" (fun _ => PyVal.str "k") ⟨"r1", []⟩ [] ⟨[]⟩
      ⟨[(PyVal.str "k", 5)], 2⟩ rfl,
   hashBlock_blacklist_pass.2.1 "d" (fun _ => PyVal.str "k") ⟨"r1", []⟩ [] ⟨[]⟩
      ⟨[], 2⟩ "k" rfl rfl,
   hashBlock_blacklist_pass.2.2 "d" (fun _ => PyVal.str "k") []
      ⟨[("k", "d", "r1")]⟩ Option.none ⟨[("k", "d", "r1")]⟩ Option.none rfl
      ("k", "d", "r1") (List.mem_cons_self _ _)⟩

/-- C4 counterexample: at a one-record dataset whose key extraction returns
the integer 3 (no black-list), `block` raises `ValueError`, not the
`TypeError` the claim asserts. -/
theorem hashBlock_nonstring_not_typeerror :
    hashBlock ⟨"d", [⟨"r1", []⟩]⟩ (fun _ => PyVal.int 3) Option.none
      = Except.error (RLTKError.valueError
          "Return of the function or property should be a string")
    ∧ isTypeError
        (hashBlock ⟨"d", [⟨"r1", []⟩]⟩ (fun _ => PyVal.int 3) Option.none)
      = false :=
  ⟨rfl, rfl⟩

/-- C4 (amended): if some record's extracted key (not excluded by the
black-list) is not a string, the call raises a value error and processing
stops immediately at that record — the key is not coerced, the record is not
silently skipped, and no further record of the dataset is processed
(the result is this error whatever records follow). -/
theorem hashBlock_nonstring_raises_valueerror (dsId : String) (f : Rec → PyVal)
    (r : Rec) (rs : List Rec) (b : Block) (bl : Option BlockBlackList)
    (hnb : blHas bl (f r) = false) (hns : ∀ s, f r ≠ PyVal.str s) :
    hashBlockLoop dsId f (r :: rs) b bl =
      Except.error (RLTKError.valueError
        "Return of the function or property should be a string") :=
  hashBlockLoop_error_step dsId f r rs b bl hnb hns

/-- Witness for the amended C4: an integer key with one more record pending
still yields exactly the `ValueError`. -/
theorem hashBlock_nonstring_raises_valueerror_witness :
    hashBlockLoop "d" (fun _ => PyVal.int 3) [⟨"r1", []⟩, ⟨"r2", []⟩] ⟨[]⟩
        Option.none
      = Except.error (RLTKError.valueError
        "Return of the function or property should be a string") :=
  hashBlock_nonstring_raises_valueerror "d" (fun _ => PyVal.int 3) ⟨"r1", []⟩
    [⟨"r2", []⟩] ⟨[]⟩ Option.none rfl (fun _ h => PyVal.noConfusion h)

/-- C5 (code-bug evidence): `Record.__eq__` uses `isinstance`, so an
instance of a strict subclass (class chain `[0, 1]`) with the same id
compares equal to an instance of the superclass (chain `[0]`), although the
classes differ — and the comparison is not symmetric. -/
theorem recordEq_isinstance_subclass :
    recordEq ⟨[0], PyVal.str "x"⟩ ⟨[0, 1], PyVal.str "x"⟩ = true
    ∧ recordEq ⟨[0, 1], PyVal.str "x"⟩ ⟨[0], PyVal.str "x"⟩ = false
    ∧ ([0] : List Nat) ≠ [0, 1] := by decide

/-- C7: `Block.add` is idempotent — adding an identical
(key, dataset-id, record-id) triple a second time leaves the block
unchanged, so no duplicate entry is ever created. -/
theorem block_add_idempotent (b : Block) (k d r : String) :
    (b.add k d r).add k d r = b.add k d r := by
  have h : (k, d, r) ∈ (b.add k d r).entries := Block.mem_add.mpr (Or.inr rfl)
  rw [show (b.add k d r).add k d r
      = (if (k, d, r) ∈ (b.add k d r).entries then b.add k d r
         else ⟨(b.add k d r).entries ++ [(k, d, r)]⟩) from rfl,
    if_pos h]

/-- C8: on a record instance that does not yet cache the attribute, the
first access through `cached_property.__get__` invokes the decorated
function and stores the result in the instance dict; any access on an
instance that has the attribute cached returns the stored value, leaves the
instance unchanged, and does not invoke the function. -/
theorem cached_property_caches (p : CachedProp) (o : Obj)
    (h : o.lookup p.name = Option.none) :
    cachedGet p o = (p.func o, ⟨o.dict ++ [(p.name, p.func o)]⟩, true)
    ∧ ∀ (o' : Obj) (v : PyVal), o'.lookup p.name = some v →
        cachedGet p o' = (v, o', false) := by
  constructor
  · rw [cachedGet, h]
    have hstore : (Obj.mk (o.dict ++ [(p.name, p.func o)])).lookup p.name
        = some (p.func o) := dictGet_append_self h
    simp only [hstore, Option.getD_some]
  · intro o' v hv
    exact cachedGet_cached p o' v hv

/-- Witness for C8: a concrete property on a fresh instance is computed and
stored once, and the second access returns the stored value without
invoking the function. -/
theorem cached_property_caches_witness :
    cachedGet ⟨"x", fun _ => PyVal.int 7⟩ ⟨[]⟩
      = (PyVal.int 7, ⟨[("x", PyVal.int 7)]⟩, true)
    ∧ cachedGet ⟨"x", fun _ => PyVal.int 7⟩ ⟨[("x", PyVal.int 7)]⟩
      = (PyVal.int 7, ⟨[("x", PyVal.int 7)]⟩, false) :=
  ⟨(cached_property_caches ⟨"x", fun _ => PyVal.int 7⟩ ⟨[]⟩ rfl).1,
   (cached_property_caches ⟨"x", fun _ => PyVal.int 7⟩ ⟨[]⟩ rfl).2
     ⟨[("x", PyVal.int 7)]⟩ (PyVal.int 7) rfl⟩

/-- C10: the black-list exclusion check runs before the string-type check:
a record whose extracted key is not a string but is currently excluded is
silently skipped — the pass continues with the remaining records and no
error is raised at this record. -/
theorem blacklist_check_precedes_type_check (dsId : String) (f : Rec → PyVal)
    (r : Rec) (rs : List Rec) (b : Block) (bl : BlockBlackList)
    (hex : bl.has (f r) = true) (_hns : ∀ s, f r ≠ PyVal.str s) :
    hashBlockLoop dsId f (r :: rs) b (some bl) =
      hashBlockLoop dsId f rs b (some bl) :=
  hashBlockLoop_skip dsId f r rs b (some bl) hex

/-- Witness for C10: an excluded integer-valued key is skipped without a
type error. -/
theorem blacklist_check_precedes_type_check_witness :
    hashBlockLoop "d" (fun _ => PyVal.int 3) [⟨"r1", []⟩] ⟨[]⟩
        (some ⟨[(PyVal.int 3, 5)], 2⟩)
      = hashBlockLoop "d" (fun _ => PyVal.int 3) [] ⟨[]⟩
        (some ⟨[(PyVal.int 3, 5)], 2⟩) :=
  blacklist_check_precedes_type_check "d" (fun _ => PyVal.int 3) ⟨"r1", []⟩ []
    ⟨[]⟩ ⟨[(PyVal.int 3, 5)], 2⟩ rfl (fun _ h => PyVal.noConfusion h)

set_option maxRecDepth 10000 in
/-- C6 (code-bug evidence): `validate_record` accepts an id of 256
characters — 255 letters followed by a newline — because Python's `$`
anchor also matches just before a final newline, although the claim (and
the evident intent of the 1–255 length bound) requires a `ValueError` for
any id longer than 255 characters. -/
theorem validate_record_accepts_overlong_id :
    (String.mk (List.replicate 255 'a' ++ ['\n'])).length = 256
    ∧ validate_record
        ⟨"R", [],
          (fun _ => PyVal.str (String.mk (List.replicate 255 'a' ++ ['\n']))),
          false⟩
        ⟨[]⟩
      = Except.ok ⟨[]⟩ := by
  constructor
  · decide
  · rfl

/-- C9: `generate_record_property_cache` forces and stores every
`cached_property` of the class, validates the id, and deletes the raw
object exactly when the class declares `remove_raw_object`; afterwards
every cached attribute (a cached id included) is still accessible — its
stored value is returned with no further function invocation —
independently of the raw object. -/
theorem generate_record_property_cache_correct (c : RecClass) (o : Obj)
    (hraw : ∃ w, o.lookup "raw_object" = some w)
    (hnames : ∀ p ∈ c.cachedProps, p.name ≠ "raw_object")
    (hval : ∃ o2, validate_record c (forceProps c o) = Except.ok o2) :
    ∃ o' : Obj, generate_record_property_cache c o = Except.ok o'
      ∧ (∀ p ∈ c.cachedProps, ∃ v, o'.lookup p.name = some v
          ∧ cachedGet p o' = (v, o', false))
      ∧ (o'.lookup "raw_object" = Option.none ↔ c.removeRaw = true) := by
  obtain ⟨o2, h2⟩ := hval
  obtain ⟨w, hw⟩ := hraw
  have hw1 : (forceProps c o).lookup "raw_object" = some w :=
    foldProps_preserves c.cachedProps o "raw_object" w hw
  have hw2 : o2.lookup "raw_object" = some w :=
    validate_ok_preserves c (forceProps c o) o2 h2 "raw_object" w hw1
  have hstore : ∀ p ∈ c.cachedProps, ∃ v, o2.lookup p.name = some v := by
    intro p hp
    obtain ⟨v, hv⟩ := foldProps_stores c.cachedProps o p hp
    exact ⟨v, validate_ok_preserves c (forceProps c o) o2 h2 p.name v hv⟩
  rw [generate_record_property_cache]
  simp only [h2]
  by_cases hrm : c.removeRaw = true
  · rw [if_pos hrm]
    simp only [hw2]
    refine ⟨o2.removeKey "raw_object", rfl, ?_, ?_⟩
    · intro p hp
      obtain ⟨v, hv⟩ := hstore p hp
      have hv' : (o2.removeKey "raw_object").lookup p.name = some v :=
        dictGet_filter_ne (hnames p hp) hv
      exact ⟨v, hv', cachedGet_cached p _ v hv'⟩
    · exact ⟨fun _ => hrm, fun _ => dictGet_filter_self o2.dict "raw_object"⟩
  · rw [if_neg hrm]
    refine ⟨o2, rfl, ?_, ?_⟩
    · intro p hp
      obtain ⟨v, hv⟩ := hstore p hp
      exact ⟨v, hv, cachedGet_cached p o2 v hv⟩
    · constructor
      · intro hn
        rw [hw2] at hn
        cases hn
      · intro hT
        exact absurd hT hrm

/-- Witness for C9: a class with a cached id and one further cached
attribute, declared raw-object-removing, finalizes a concrete instance. -/
theorem generate_record_property_cache_correct_witness :
    ∃ o' : Obj,
      generate_record_property_cache
          ⟨"R", [⟨"id", fun _ => PyVal.str "a"⟩, ⟨"x", fun _ => PyVal.int 1⟩],
            (fun _ => PyVal.noneV), true⟩
          ⟨[("raw_object", PyVal.int 0)]⟩
        = Except.ok o'
      ∧ (∀ p ∈ [(⟨"id", fun _ => PyVal.str "a"⟩ : CachedProp),
            ⟨"x", fun _ => PyVal.int 1⟩],
          ∃ v, o'.lookup p.name = some v ∧ cachedGet p o' = (v, o', false))
      ∧ (o'.lookup "raw_object" = Option.none ↔ true = true) :=
  generate_record_property_cache_correct
    ⟨"R", [⟨"id", fun _ => PyVal.str "a"⟩, ⟨"x", fun _ => PyVal.int 1⟩],
      (fun _ => PyVal.noneV), true⟩
    ⟨[("raw_object", PyVal.int 0)]⟩
    ⟨PyVal.int 0, rfl⟩
    (by
      intro p hp
      cases hp with
      | head => decide
      | tail _ hp =>
        cases hp with
        | head => decide
        | tail _ hp => cases hp)
    ⟨⟨[("raw_object", PyVal.int 0), ("id", PyVal.str "a"), ("x", PyVal.int 1)]⟩,
      rfl⟩

end RLTK
